import Mathlib

set_option maxRecDepth 40000

attribute [local semireducible] Rat.add Rat.sub Rat.mul Rat.inv Rat.ofScientific

/-!
Verification development for the slicer estimate service (`src/app.py`).

The file embeds, shallowly, the G-code estimation core of the service:

* `_extrusion_length_mm_from_e_axis` — the extrusion-axis integrator;
* `parse_filament_g` — the tiered mass estimator;
* `parse_time_seconds` — the time-summary parser;
* `estimate` — the orchestration core of the `/estimate` handler, from the
  point where the sliced G-code text is available (download and external
  slicing are I/O collaborators outside the core).

Machine floats of the source are modelled exactly: every quantity the code
manipulates is of the form `a + b·π` with `a b : ℚ` (direct gram reports are
rational; density-converted lengths are rational multiples of `π`), so mass
values are carried as the pair `MassVal` and mapped to `ℝ` only for the
final rounded presentation.  Regular-expression searches of the source are
embedded as explicit leftmost-match scanners with the exact
greedy/backtracking semantics of each concrete pattern.
-/

/-- ASCII whitespace, as matched by the source's `\s` class and `str.strip`. -/
def isSpaceChar (c : Char) : Bool :=
  c = ' ' || c = '\t' || c = '\n' || c = '\r'

/-- ASCII lower-casing, as performed by `re.IGNORECASE` / `str.lower`. -/
def asciiLower (c : Char) : Char :=
  if 'A' ≤ c ∧ c ≤ 'Z' then Char.ofNat (c.toNat + 32) else c

/-- ASCII upper-casing, as performed by `str.upper`. -/
def asciiUpper (c : Char) : Char :=
  if 'a' ≤ c ∧ c ≤ 'z' then Char.ofNat (c.toNat - 32) else c

/-- `str.upper()` on a Python string (ASCII range). -/
def upperStr (s : String) : String :=
  String.mk (s.toList.map asciiUpper)

/-- A word character, as matched by the `\b` boundary of the source's
`m\b` length pattern: `[A-Za-z0-9_]`. -/
def isWordChar (c : Char) : Bool :=
  c.isAlpha || c.isDigit || c = '_'

/-- Value of a run of decimal digit characters (most significant first). -/
def decVal (l : List Char) : ℕ :=
  l.foldl (fun a c => 10 * a + (c.toNat - 48)) 0

/-- A character of the source's `[0-9.]` number-group class. -/
def isNumChar (c : Char) : Bool :=
  c.isDigit || c = '.'

/-- Numeric reading of a `[0-9.]+` capture: integer part before the first
dot, fractional part after it.  Python's `float(...)` accepts such a
capture only when it has at most one dot and at least one digit (else it
raises `ValueError`); that domain is modelled by `floatOfCapture`, and on
it this value agrees with `float`. -/
def parseDec (l : List Char) : ℚ :=
  let ip := l.takeWhile Char.isDigit
  match l.dropWhile Char.isDigit with
  | '.' :: r2 =>
      let fs := r2.takeWhile Char.isDigit
      (decVal ip : ℚ) + mkRat (decVal fs) (10 ^ fs.length)
  | _ => (decVal ip : ℚ)

/-- Match of the source number pattern `-?\d*\.?\d+` at the head of the
input (with its backtracking semantics: `"5."` yields `5`, `".5"` yields
`1/2`, a bare `"-"` or `"."` fails), returning the numeric value. -/
def parseENum (l : List Char) : Option ℚ :=
  let p := match l with
    | '-' :: r => (true, r)
    | _ => (false, l)
  let ds := p.2.takeWhile Char.isDigit
  let core : Option ℚ :=
    match p.2.dropWhile Char.isDigit with
    | '.' :: r3 =>
        let fs := r3.takeWhile Char.isDigit
        if fs.isEmpty then
          (if ds.isEmpty then none else some (decVal ds : ℚ))
        else some ((decVal ds : ℚ) + mkRat (decVal fs) (10 ^ fs.length))
    | _ => if ds.isEmpty then none else some (decVal ds : ℚ)
  match core with
  | none => none
  | some q => some (if p.1 then -q else q)

/-- Leftmost match of the source's extrusion-axis regex `[Ee](-?\d*\.?\d+)`:
scan for a case-insensitive `E` followed by a number. -/
def findE : List Char → Option ℚ
  | [] => none
  | c :: cs =>
      if asciiLower c = 'e' then
        match parseENum cs with
        | some q => some q
        | none => findE cs
      else findE cs

/-- Does `p` occur literally at the head of `l`?  Embeds Python's
(case-sensitive) `str.startswith`. -/
def leadsWith : List Char → List Char → Bool
  | [], _ => true
  | _ :: _, [] => false
  | p :: ps, c :: cs => p = c && leadsWith ps cs

/-- `l.dropWhile isSpaceChar`, the left half of `str.strip`. -/
def trimL (l : List Char) : List Char := l.dropWhile isSpaceChar

/-- Strip trailing ASCII whitespace, the right half of `str.strip`. -/
def trimR (l : List Char) : List Char :=
  (l.reverse.dropWhile isSpaceChar).reverse

/-- `raw.split(";", 1)[0].strip()`: drop the inline comment, then strip. -/
def cleanLine (raw : List Char) : List Char :=
  trimR (trimL (raw.takeWhile (fun c => c ≠ ';')))

/-- The integrator's simulation state: extrusion mode and virtual extruder
position, together with the accumulated forward total. -/
structure EState where
  absolute : Bool
  e_pos : ℚ
  total : ℚ
deriving DecidableEq

/-- One line of the extrusion-axis integrator's loop body
(`_extrusion_length_mm_from_e_axis` in the source). -/
def stepLine (st : EState) (raw : List Char) : EState :=
  let line := cleanLine raw
  if line.isEmpty then st
  else if leadsWith "M82".toList line then { st with absolute := true }
  else if leadsWith "M83".toList line then { st with absolute := false }
  else if leadsWith "G92".toList line then
    match findE line with
    | some v => { st with e_pos := v }
    | none => st
  else if leadsWith "G0".toList line || leadsWith "G1".toList line then
    match findE line with
    | none => st
    | some v =>
        if st.absolute then
          let delta := v - st.e_pos
          { absolute := st.absolute, e_pos := v
            total := if delta > 0 then st.total + delta else st.total }
        else
          { st with total := if v > 0 then st.total + v else st.total }
  else st

/-- The document's lines (split on the newline character, as
`str.splitlines` does for newline-separated text). -/
def gcodeLines (gcode : String) : List (List Char) :=
  gcode.toList.splitOn '\n'

/-- The Extrusion-Axis Integrator: replay the document through `stepLine`
from absolute mode at position zero, and clamp the total to `≥ 0`. -/
def _extrusion_length_mm_from_e_axis (gcode : String) : ℚ :=
  max 0 ((gcodeLines gcode).foldl stepLine ⟨true, 0, 0⟩).total


/-- A float value of the estimation pipeline, represented exactly as
`a + b·π`.  Direct gram reports live in the `a` component; every
density-converted length is a rational multiple of `π` and lives in `b`. -/
structure MassVal where
  a : ℚ
  b : ℚ
deriving DecidableEq

instance : Zero MassVal := ⟨⟨0, 0⟩⟩

/-- The real number denoted by a `MassVal`. -/
noncomputable def MassVal.toReal (m : MassVal) : ℝ :=
  (m.a : ℝ) + (m.b : ℝ) * Real.pi

/-- Scaling of a pipeline value by a rational factor (used for the final
multiplication by the copies count). -/
def MassVal.scale (q : ℚ) (m : MassVal) : MassVal :=
  ⟨q * m.a, q * m.b⟩

/-- The material density table of `_calc_grams_from_length_mm`:
`PLA` default 1.24 g/cm³, overridden to 1.27 for `PETG` (after `upper()`). -/
def densityOf (material : String) : ℚ :=
  if upperStr material = "PETG" then 1.27 else 1.24

/-- `_calc_grams_from_length_mm`, over the reals: cylinder volume of the
filament length at the given diameter, converted to cm³ and multiplied by
the material density. -/
noncomputable def _calc_grams_from_length_mm (length_mm : ℝ) (material : String)
    (filament_diameter_mm : ℝ := 1.75) : ℝ :=
  let density : ℝ := (densityOf material : ℚ)
  let radius_mm := filament_diameter_mm / 2.0
  let area_mm2 := Real.pi * radius_mm ^ 2
  let volume_mm3 := area_mm2 * length_mm
  let volume_cm3 := volume_mm3 / 1000.0
  volume_cm3 * density

/-- The same conversion carried exactly: `π`-coefficient of the resulting
grams value. -/
def calcGrams (length_mm : ℚ) (material : String)
    (filament_diameter_mm : ℚ := 7/4) : MassVal :=
  let radius := filament_diameter_mm / 2
  ⟨0, radius * radius * length_mm / 1000 * densityOf material⟩

/-- Case-insensitive literal match: consume `pat` (given lower-case) from
the head of the input, returning the remainder. -/
def matchLit : List Char → List Char → Option (List Char)
  | [], l => some l
  | _ :: _, [] => none
  | p :: ps, c :: cs => if asciiLower c = p then matchLit ps cs else none

/-- Leftmost-match search: try the matcher at every start position, in
order, as `re.search` does. -/
def scanFor (f : List Char → Option α) : List Char → Option α
  | [] => f []
  | l@(_ :: cs) =>
      match f l with
      | some v => some v
      | none => scanFor f cs

/-- Consume `\s*=\s*` and then a `([0-9.]+)` capture, returning the
capture's value together with the remaining input. -/
def eqNumGroup (rest : List Char) : Option (ℚ × List Char) :=
  match (rest.dropWhile isSpaceChar) with
  | '=' :: r2 =>
      if (r2.dropWhile isSpaceChar).takeWhile isNumChar = [] then none
      else some (parseDec ((r2.dropWhile isSpaceChar).takeWhile isNumChar),
        (r2.dropWhile isSpaceChar).dropWhile isNumChar)
  | _ => none

/-- After a capture, consume `\s*` and require a given (lower-case) unit
letter, as in the `...\s*g` patterns. -/
def unitAfter (u : Char) (rest : List Char) : Bool :=
  match rest.dropWhile isSpaceChar with
  | c :: _ => asciiLower c = u
  | [] => false

/-- Pattern `filament used \[g\]\s*=\s*([0-9.]+)` at the head of the input. -/
def gramPat1 (l : List Char) : Option ℚ :=
  match matchLit "filament used [g]".toList l with
  | none => none
  | some r =>
      match eqNumGroup r with
      | none => none
      | some (v, _) => some v

/-- Pattern `filament used\s*=\s*([0-9.]+)\s*g` at the head of the input. -/
def gramPat2 (l : List Char) : Option ℚ :=
  match matchLit "filament used".toList l with
  | none => none
  | some r =>
      match eqNumGroup r with
      | none => none
      | some (v, r2) => if unitAfter 'g' r2 then some v else none

/-- Pattern `Filament used:\s*([0-9.]+)\s*g` at the head of the input. -/
def gramPat3 (l : List Char) : Option ℚ :=
  match matchLit "filament used:".toList l with
  | none => none
  | some r =>
      if (r.dropWhile isSpaceChar).takeWhile isNumChar = [] then none
      else if unitAfter 'g' ((r.dropWhile isSpaceChar).dropWhile isNumChar) then
        some (parseDec ((r.dropWhile isSpaceChar).takeWhile isNumChar))
      else none

/-- Tier 1 of the Mass Estimator on one line: the three gram patterns, in
the order the source tries them. -/
def lineGram (line : List Char) : Option ℚ :=
  match scanFor gramPat1 line with
  | some v => some v
  | none =>
      match scanFor gramPat2 line with
      | some v => some v
      | none => scanFor gramPat3 line

/-- First value produced by `f` over the lines, in order. -/
def firstLine {α : Type} (f : List Char → Option α) : List (List Char) → Option α
  | [] => none
  | l :: ls =>
      match f l with
      | some v => some v
      | none => firstLine f ls

/-- The Mass Estimator's direct-gram scan: first line (and first pattern)
reporting grams wins. -/
def findGram (gcode : String) : Option ℚ :=
  firstLine lineGram (gcodeLines gcode)

/-- Pattern `filament used \[mm\]\s*=\s*([0-9.]+)` at the head of the input. -/
def lenPatMm1 (l : List Char) : Option ℚ :=
  match matchLit "filament used [mm]".toList l with
  | none => none
  | some r =>
      match eqNumGroup r with
      | none => none
      | some (v, _) => some v

/-- Pattern `filament used\s*=\s*([0-9.]+)\s*mm` at the head of the input. -/
def lenPatMm2 (l : List Char) : Option ℚ :=
  match matchLit "filament used".toList l with
  | none => none
  | some r =>
      match eqNumGroup r with
      | none => none
      | some (v, r2) =>
          match r2.dropWhile isSpaceChar with
          | c1 :: c2 :: _ =>
              if asciiLower c1 = 'm' ∧ asciiLower c2 = 'm' then some v else none
          | _ => none

/-- Pattern `filament used\s*=\s*([0-9.]+)\s*m\b` at the head of the input:
a lone `m` followed by a word boundary. -/
def lenPatM (l : List Char) : Option ℚ :=
  match matchLit "filament used".toList l with
  | none => none
  | some r =>
      match eqNumGroup r with
      | none => none
      | some (v, r2) =>
          match r2.dropWhile isSpaceChar with
          | c1 :: rest =>
              if asciiLower c1 = 'm' then
                match rest with
                | [] => some v
                | c2 :: _ => if isWordChar c2 then none else some v
              else none
          | [] => none

/-- Tier 2 of the Mass Estimator on one line: the three length patterns in
source order, metres already converted to millimetres. -/
def lineLen (line : List Char) : Option ℚ :=
  match scanFor lenPatMm1 line with
  | some v => some v
  | none =>
      match scanFor lenPatMm2 line with
      | some v => some v
      | none =>
          match scanFor lenPatM line with
          | some v => some (v * 1000)
          | none => none

/-- The Mass Estimator's length-summary scan, yielding millimetres. -/
def findLength (gcode : String) : Option ℚ :=
  firstLine lineLen (gcodeLines gcode)

/-- `parse_filament_g`, on documents whose first numeric capture (if any)
is accepted by `float`: direct grams, else reported length converted via
density, else the integrator's length converted via density (zero if the
integrator reports no forward extrusion).  The full function including the
`ValueError` path of `float(...)` is `parse_filament_g_exn`, which agrees
with this one whenever it returns (`parse_filament_g_exn_ok`). -/
def parse_filament_g (gcode : String) (material : String := "PLA")
    (filament_diameter_mm : ℚ := 7/4) : MassVal :=
  match findGram gcode with
  | some v => ⟨v, 0⟩
  | none =>
      match findLength gcode with
      | some length_mm => calcGrams length_mm material filament_diameter_mm
      | none =>
          let e_length_mm := _extrusion_length_mm_from_e_axis gcode
          if e_length_mm ≤ 0 then 0
          else calcGrams e_length_mm material filament_diameter_mm


/-- A character of the time parser's capture class `[0-9hms\s]` under
`IGNORECASE`. -/
def isTimeChar (c : Char) : Bool :=
  c.isDigit || asciiLower c = 'h' || asciiLower c = 'm' || asciiLower c = 's'
    || isSpaceChar c

/-- Match of `\s*([0-9hms\s]+)` at the head of the input: the greedy `\s*`
takes the whole leading whitespace run and the capture the following run of
class characters; when nothing of the class follows, `\s*` backtracks one
character so the capture is the run's last whitespace character. -/
def timeGroup (rest : List Char) : Option (List Char) :=
  let sp := rest.takeWhile isSpaceChar
  let r2 := rest.dropWhile isSpaceChar
  match r2 with
  | c :: _ =>
      if isTimeChar c then some (r2.takeWhile isTimeChar)
      else if sp.isEmpty then none else some [sp.getLastD ' ']
  | [] => if sp.isEmpty then none else some [sp.getLastD ' ']

/-- Match of `.*=\s*([0-9hms\s]+)` at the head of the input: the greedy
`.*` cannot cross a newline and prefers the rightmost `=` whose tail admits
the capture. -/
def tryDots : List Char → Option (List Char)
  | [] => none
  | c :: cs =>
      match (if c ≠ '\n' then tryDots cs else none) with
      | some g => some g
      | none => if c = '=' then timeGroup cs else none

/-- Leftmost match of the whole time regex
`estimated printing time.*=\s*([0-9hms\s]+)` (case-insensitive), returning
the capture. -/
def searchTime : List Char → Option (List Char)
  | [] => none
  | c :: cs =>
      match matchLit "estimated printing time".toList (c :: cs) with
      | some rest =>
          match tryDots rest with
          | some g => some g
          | none => searchTime cs
      | none => searchTime cs

/-- Leftmost match of `(\d+)\s*u` (`u` the unit letter, matched
case-sensitively: the source's component scans carry no `IGNORECASE` flag)
inside the capture, as the source uses for the `h`, `m` and `s`
components. -/
def scanUnit (u : Char) : List Char → Option ℕ
  | [] => none
  | c :: cs =>
      if c.isDigit then
        let ds := (c :: cs).takeWhile Char.isDigit
        let r2 := ((c :: cs).dropWhile Char.isDigit).dropWhile isSpaceChar
        match r2 with
        | x :: _ => if x = u then some (decVal ds) else scanUnit u cs
        | [] => scanUnit u cs
      else scanUnit u cs

/-- `parse_time_seconds`: find the summary phrase and convert its duration
expression to seconds; `-1` when the phrase (with its `=` and expression)
is absent. -/
def parse_time_seconds (txt : String) : ℤ :=
  match searchTime txt.toList with
  | none => -1
  | some s =>
      let h := (scanUnit 'h' s).getD 0
      let m := (scanUnit 'm' s).getD 0
      let se := (scanUnit 's' s).getD 0
      (h * 3600 + m * 60 + se : ℕ)


/-- The response assembled by the `/estimate` handler: the scaled time, the
scaled (pre-rounding) mass, and the optional zero-mass diagnostics
(`debug_header`, `debug_e_length_mm`). -/
structure Resp where
  print_time_seconds : ℤ
  massScaled : MassVal
  debug : Option (List String × ℚ)
deriving DecidableEq

/-- `gcode.splitlines()[:60]`, the diagnostic header. -/
def headerLines (gcode : String) : List String :=
  ((gcodeLines gcode).take 60).map String.mk

/-- The orchestration core of `estimate`, from the sliced G-code text on,
on documents where the mass estimator's numeric captures parse: run the two
estimators, apply the hard zero-mass fallback through the integrator, fail
on the `-1` time sentinel, and otherwise scale both results by
`max 1 copies`, attaching diagnostics when the mass is zero.  The full
handler including the `ValueError` path of the mass estimator is
`estimate_exn`, which coincides with this one whenever the mass estimator
returns (`estimate_exn_eq_estimate`). -/
def estimate (gcode : String) (material : String := "PLA") (copies : ℤ := 1) :
    Except String Resp :=
  let g := parse_filament_g gcode material
  let t := parse_time_seconds gcode
  let e_len := _extrusion_length_mm_from_e_axis gcode
  let g2 := if g = 0 ∧ 0 < e_len then calcGrams e_len material else g
  if t < 0 then Except.error "Failed to read slicer output"
  else Except.ok
    { print_time_seconds := t * max 1 copies
      massScaled := MassVal.scale (max 1 copies : ℤ) g2
      debug :=
        if g2 = 0 then some (headerLines gcode, _extrusion_length_mm_from_e_axis gcode)
        else none }

deriving instance DecidableEq for Except

/-- Rounding of a real to two decimal places, Python's `round(x, 2)` at the
modelling granularity of this file. -/
noncomputable def round2 (x : ℝ) : ℝ := (round (x * 100) : ℤ) / 100

/-- The `filament_g` field of the handler's JSON response: the scaled mass,
rounded to two decimals. -/
noncomputable def filament_g (r : Resp) : ℝ := round2 r.massScaled.toReal


/-- The single-copy mass the orchestrator settles on: the Mass Estimator's
value, replaced through the hard fallback by the density-converted
integrator length when the estimator returned zero but the integrator finds
forward extrusion. -/
def massFinal (gcode material : String) : MassVal :=
  let g := parse_filament_g gcode material
  let e_len := _extrusion_length_mm_from_e_axis gcode
  if g = 0 ∧ 0 < e_len then calcGrams e_len material else g

/-- The decimal digit characters used to render canonical duration
expressions. -/
def digitChar (d : ℕ) : Char := "0123456789".toList.getD d '0'

/-- Decimal rendering of a natural number, most significant digit first. -/
def natChars (n : ℕ) : List Char :=
  if _h : n < 10 then [digitChar n]
  else natChars (n / 10) ++ [digitChar (n % 10)]
decreasing_by exact Nat.div_lt_self (by omega) (by omega)

/-- One optional duration component: its digits, the unit letter and a
separating space. -/
def compChars (u : Char) : Option ℕ → List Char
  | none => []
  | some n => natChars n ++ [u, ' ']

/-- A canonical slicer time summary with any subset of hour, minute and
second components. -/
def timeText (oh om os : Option ℕ) : String :=
  String.mk ("estimated printing time = ".toList ++
    (compChars 'h' oh ++ (compChars 'm' om ++ compChars 's' os)))

/-- Python's `float(...)` applied to a `[0-9.]+` capture: it succeeds
exactly when the capture has at most one dot and at least one digit, and
raises `ValueError` (here `none`) otherwise. -/
def floatOfCapture (l : List Char) : Option ℚ :=
  if l.count '.' ≤ 1 ∧ l.any Char.isDigit then some (parseDec l) else none

/-- `eqNumGroup`, returning the raw capture instead of its numeric value. -/
def eqNumGroupC (rest : List Char) : Option (List Char × List Char) :=
  match (rest.dropWhile isSpaceChar) with
  | '=' :: r2 =>
      if (r2.dropWhile isSpaceChar).takeWhile isNumChar = [] then none
      else some ((r2.dropWhile isSpaceChar).takeWhile isNumChar,
        (r2.dropWhile isSpaceChar).dropWhile isNumChar)
  | _ => none

/-- The first gram pattern, returning the raw capture. -/
def gramCap1 (l : List Char) : Option (List Char) :=
  match matchLit "filament used [g]".toList l with
  | none => none
  | some r =>
      match eqNumGroupC r with
      | none => none
      | some (ds, _) => some ds

/-- The second gram pattern, returning the raw capture. -/
def gramCap2 (l : List Char) : Option (List Char) :=
  match matchLit "filament used".toList l with
  | none => none
  | some r =>
      match eqNumGroupC r with
      | none => none
      | some (ds, r2) => if unitAfter 'g' r2 then some ds else none

/-- The third gram pattern, returning the raw capture. -/
def gramCap3 (l : List Char) : Option (List Char) :=
  match matchLit "filament used:".toList l with
  | none => none
  | some r =>
      if (r.dropWhile isSpaceChar).takeWhile isNumChar = [] then none
      else if unitAfter 'g' ((r.dropWhile isSpaceChar).dropWhile isNumChar) then
        some ((r.dropWhile isSpaceChar).takeWhile isNumChar)
      else none

/-- Tier 1 on one line, returning the raw capture. -/
def lineGramC (line : List Char) : Option (List Char) :=
  match scanFor gramCap1 line with
  | some ds => some ds
  | none =>
      match scanFor gramCap2 line with
      | some ds => some ds
      | none => scanFor gramCap3 line

/-- The direct-gram scan, returning the first match's raw capture. -/
def findGramC (gcode : String) : Option (List Char) :=
  firstLine lineGramC (gcodeLines gcode)

/-- The first length pattern, returning the raw capture. -/
def lenCapMm1 (l : List Char) : Option (List Char) :=
  match matchLit "filament used [mm]".toList l with
  | none => none
  | some r =>
      match eqNumGroupC r with
      | none => none
      | some (ds, _) => some ds

/-- The second length pattern, returning the raw capture. -/
def lenCapMm2 (l : List Char) : Option (List Char) :=
  match matchLit "filament used".toList l with
  | none => none
  | some r =>
      match eqNumGroupC r with
      | none => none
      | some (ds, r2) =>
          match r2.dropWhile isSpaceChar with
          | c1 :: c2 :: _ =>
              if asciiLower c1 = 'm' ∧ asciiLower c2 = 'm' then some ds else none
          | _ => none

/-- The metre pattern, returning the raw capture. -/
def lenCapM (l : List Char) : Option (List Char) :=
  match matchLit "filament used".toList l with
  | none => none
  | some r =>
      match eqNumGroupC r with
      | none => none
      | some (ds, r2) =>
          match r2.dropWhile isSpaceChar with
          | c1 :: rest =>
              if asciiLower c1 = 'm' then
                match rest with
                | [] => some ds
                | c2 :: _ => if isWordChar c2 then none else some ds
              else none
          | [] => none

/-- Tier 2 on one line, returning the raw capture and whether the unit was
metres. -/
def lineLenC (line : List Char) : Option (List Char × Bool) :=
  match scanFor lenCapMm1 line with
  | some ds => some (ds, false)
  | none =>
      match scanFor lenCapMm2 line with
      | some ds => some (ds, false)
      | none =>
          match scanFor lenCapM line with
          | some ds => some (ds, true)
          | none => none

/-- The length-summary scan, returning the first match's raw capture and
unit. -/
def findLengthC (gcode : String) : Option (List Char × Bool) :=
  firstLine lineLenC (gcodeLines gcode)

/-- `parse_filament_g` with its `ValueError` path: Python's `float(...)` is
applied to the first matched capture and its failure aborts the whole
function (the service turns the exception into an HTTP 500). -/
def parse_filament_g_exn (gcode : String) (material : String := "PLA")
    (filament_diameter_mm : ℚ := 7/4) : Except String MassVal :=
  match findGramC gcode with
  | some ds =>
      match floatOfCapture ds with
      | some v => Except.ok ⟨v, 0⟩
      | none => Except.error "could not convert string to float"
  | none =>
      match findLengthC gcode with
      | some (ds, isM) =>
          match floatOfCapture ds with
          | some v =>
              Except.ok (calcGrams (if isM then v * 1000 else v) material
                filament_diameter_mm)
          | none => Except.error "could not convert string to float"
      | none =>
          if _extrusion_length_mm_from_e_axis gcode ≤ 0 then Except.ok 0
          else Except.ok
            (calcGrams (_extrusion_length_mm_from_e_axis gcode) material
              filament_diameter_mm)

/-- The full `/estimate` handler core including the mass estimator's
exception path: a `ValueError` raised by `float(...)` inside
`parse_filament_g` fails the request before the time check is reached. -/
def estimate_exn (gcode : String) (material : String := "PLA")
    (copies : ℤ := 1) : Except String Resp :=
  match parse_filament_g_exn gcode material with
  | Except.error e => Except.error e
  | Except.ok g =>
      let t := parse_time_seconds gcode
      let e_len := _extrusion_length_mm_from_e_axis gcode
      let g2 := if g = 0 ∧ 0 < e_len then calcGrams e_len material else g
      if t < 0 then Except.error "Failed to read slicer output"
      else Except.ok
        { print_time_seconds := t * max 1 copies
          massScaled := MassVal.scale (max 1 copies : ℤ) g2
          debug :=
            if g2 = 0 then
              some (headerLines gcode, _extrusion_length_mm_from_e_axis gcode)
            else none }

example : _extrusion_length_mm_from_e_axis "G1 E10\nG1 E5\nG1 E12" = 17 := by decide
example : _extrusion_length_mm_from_e_axis "M83\nG1 E2\nG1 E-1\nG1 E3" = 5 := by decide
example : _extrusion_length_mm_from_e_axis "G92 E0\nG1 E5" = 5 := by decide
example : _extrusion_length_mm_from_e_axis "G1 X2 E.5 ; c\ng1 e9" = 1/2 := by decide

example : findGram "; filament used = 12.3 g\n" = some (123/10) := by
  decide
example : findGram "Filament used: 7.5g" = some (15/2) := by decide
example : findGram "filament used [g] = 3" = some 3 := by decide
example : findGram "filament used [mm] = 3" = none := by decide
example : findLength "; filament used = 2.5 m" = some 2500 := by decide
example : findLength "; filament used = 250 mm" = some 250 := by decide
example : findLength "; filament used [mm] = 1.5" = some (3/2) := by
  decide
example : parse_filament_g "; filament used = 12 g\nfilament used = 9 mm" = ⟨12, 0⟩ := by
  decide

example : parse_time_seconds "estimated printing time = 1h 2m 3s" = 3723 := by decide
example : parse_time_seconds "estimated printing time = 45s" = 45 := by decide
example : parse_time_seconds "estimated printing time = 2h" = 7200 := by decide
example : parse_time_seconds "estimated printing time = 100" = 0 := by decide
example : parse_time_seconds "G1 E5" = -1 := by decide
example : parse_time_seconds "; estimated printing time (normal mode) = 1h 30m 10s" = 5410 := by
  decide

example :
    estimate "estimated printing time = 1m\nfilament used = 10 g" "PLA" 3 =
      Except.ok ⟨180, ⟨30, 0⟩, none⟩ := by decide
example :
    estimate "G1 E5" "PLA" 1 = Except.error "Failed to read slicer output" := by decide
example :
    estimate "estimated printing time = 100" "PLA" 1 =
      Except.ok ⟨0, 0, some (["estimated printing time = 100"], 0)⟩ := by decide

/-- `calcGrams` is the exact image of `_calc_grams_from_length_mm`. -/
theorem calcGrams_toReal (length_mm : ℚ) (material : String) (d : ℚ) :
    (calcGrams length_mm material d).toReal =
      _calc_grams_from_length_mm (length_mm : ℝ) material (d : ℝ) := by
  simp only [calcGrams, MassVal.toReal, _calc_grams_from_length_mm]
  push_cast
  ring

/-- `estimate`, written through `massFinal`: the handler fails on the time
sentinel and otherwise scales both estimates by the clamped copies count. -/
theorem estimate_eq (gcode material : String) (copies : ℤ) :
    estimate gcode material copies =
      (if parse_time_seconds gcode < 0 then
        Except.error "Failed to read slicer output"
      else Except.ok
        { print_time_seconds := parse_time_seconds gcode * max 1 copies
          massScaled := MassVal.scale (max 1 copies : ℤ) (massFinal gcode material)
          debug :=
            if massFinal gcode material = 0 then
              some (headerLines gcode, _extrusion_length_mm_from_e_axis gcode)
            else none }) := rfl

/-- C1.  A `-1` time sentinel makes `estimate` fail outright: no partial
result (in particular none carrying only a mass) is ever returned. -/
theorem sentinel_time_always_fatal (gcode material : String) (copies : ℤ)
    (h : parse_time_seconds gcode = -1) :
    estimate gcode material copies = Except.error "Failed to read slicer output" := by
  rw [estimate_eq, h]
  norm_num

/-- Witness for C1 at a document with no time summary. -/
theorem sentinel_time_always_fatal_witness :
    parse_time_seconds "G1 E5" = -1 ∧
      estimate "G1 E5" "PLA" 1 = Except.error "Failed to read slicer output" :=
  ⟨by decide, sentinel_time_always_fatal "G1 E5" "PLA" 1 (by decide)⟩

/-- C3.  Whenever the direct gram scan matches, `parse_filament_g` returns
that first match verbatim, whatever length reports or motion commands the
document also contains. -/
theorem gram_report_takes_priority (gcode material : String) (d v : ℚ)
    (h : findGram gcode = some v) :
    parse_filament_g gcode material d = ⟨v, 0⟩ := by
  unfold parse_filament_g
  rw [h]

/-- Witness for C3: a document holding a motion command, a conflicting
length report and a gram report resolves to the gram value. -/
theorem gram_report_takes_priority_witness :
    findGram "G1 E99\nfilament used = 999 mm\nfilament used = 2.5 g" = some (5/2) ∧
      parse_filament_g "G1 E99\nfilament used = 999 mm\nfilament used = 2.5 g"
        "PLA" (7/4) = ⟨5/2, 0⟩ :=
  ⟨by decide,
    gram_report_takes_priority "G1 E99\nfilament used = 999 mm\nfilament used = 2.5 g"
      "PLA" (7/4) (5/2) (by decide)⟩

/-- C4.  On `G1 E10`, `G1 E5`, `G1 E12` in absolute mode the integrator
follows the per-line delta rule: 10 + 0 + 7 = 17 mm — the retraction line
moves the position from 10 to 5 but leaves the total untouched. -/
theorem absolute_mode_delta_rule_17mm :
    _extrusion_length_mm_from_e_axis "G1 E10\nG1 E5\nG1 E12" = 10 + 0 + 7 ∧
      stepLine ⟨true, 10, 10⟩ "G1 E5".toList = ⟨true, 5, 10⟩ := by
  constructor <;> decide

/-- C10.  A summary whose expression has no unit-tagged number parses to 0
seconds, not the sentinel, and the orchestrator accepts the document as a
zero-duration print. -/
theorem unitless_time_parses_zero :
    parse_time_seconds "estimated printing time = 100" = 0 ∧
      estimate "estimated printing time = 100" "PLA" 1 =
        Except.ok ⟨0, 0, some (["estimated printing time = 100"], 0)⟩ := by
  constructor <;> decide

/-- C5.  In relative mode a move with a non-positive extrusion value leaves
the total untouched; the integrator's running total never decreases at any
line; and the §8 relative-mode document totals exactly 5 mm. -/
theorem relative_retraction_excluded :
    (∀ (st : EState) (raw : List Char) (v : ℚ), st.absolute = false →
        findE (cleanLine raw) = some v → v ≤ 0 →
        (stepLine st raw).total = st.total) ∧
    (∀ (st : EState) (raw : List Char), st.total ≤ (stepLine st raw).total) ∧
    _extrusion_length_mm_from_e_axis "M83\nG1 E2\nG1 E-1\nG1 E3" = 5 := by
  refine ⟨?_, ?_, by decide⟩
  · intro st raw v habs hfe hv
    have hnv : ¬ (v > 0) := not_lt.mpr hv
    simp only [stepLine, hfe, habs]
    split_ifs <;> simp_all
  · intro st raw
    unfold stepLine
    rcases h : findE (cleanLine raw) with _ | v <;>
      simp only [h] <;> split_ifs <;> simp_all <;> linarith

/-- Witness for C5 at a concrete relative-mode retraction line. -/
theorem relative_retraction_excluded_witness :
    findE (cleanLine "G1 E-1".toList) = some (-1) ∧
      (stepLine ⟨false, 0, 2⟩ "G1 E-1".toList).total = (⟨false, 0, 2⟩ : EState).total :=
  ⟨by decide,
    relative_retraction_excluded.1 ⟨false, 0, 2⟩ "G1 E-1".toList (-1) rfl
      (by decide) (by norm_num)⟩

/-- `MassVal.scale` is multiplication of the denoted real. -/
theorem massval_scale_toReal (q : ℚ) (m : MassVal) :
    (MassVal.scale q m).toReal = (q : ℝ) * m.toReal := by
  simp only [MassVal.scale, MassVal.toReal]
  push_cast
  ring

/-- C7.  A produced result scales both single-copy estimates by
`max 1 copies` (time as an integer, mass rounded after scaling), and a
request for zero copies is answered exactly like one copy. -/
theorem copies_clamped_scaling (gcode material : String) (c : ℤ) (r : Resp)
    (h : estimate gcode material c = Except.ok r) :
    (r.print_time_seconds = parse_time_seconds gcode * max 1 c ∧
      filament_g r = round2 ((massFinal gcode material).toReal * ((max 1 c : ℤ) : ℝ))) ∧
    estimate gcode material 0 = estimate gcode material 1 := by
  constructor
  · rw [estimate_eq] at h
    by_cases ht : parse_time_seconds gcode < 0
    · rw [if_pos ht] at h
      cases h
    · rw [if_neg ht] at h
      injection h with h2
      subst h2
      refine ⟨rfl, ?_⟩
      simp only [filament_g, massval_scale_toReal]
      push_cast
      ring_nf
  · have h0 : max (1:ℤ) 0 = 1 := by norm_num
    have h1 : max (1:ℤ) 1 = 1 := by norm_num
    rw [estimate_eq, estimate_eq, h0, h1]

/-- Witness for C7 at a three-copy request. -/
theorem copies_clamped_scaling_witness :
    estimate "estimated printing time = 1m\nfilament used = 10 g" "PLA" 3 =
        Except.ok ⟨180, ⟨30, 0⟩, none⟩ ∧
      ((((⟨180, ⟨30, 0⟩, none⟩ : Resp)).print_time_seconds =
          parse_time_seconds "estimated printing time = 1m\nfilament used = 10 g" *
            max 1 3 ∧
        filament_g ⟨180, ⟨30, 0⟩, none⟩ =
          round2
            ((massFinal "estimated printing time = 1m\nfilament used = 10 g"
                  "PLA").toReal * ((max 1 3 : ℤ) : ℝ))) ∧
      estimate "estimated printing time = 1m\nfilament used = 10 g" "PLA" 0 =
        estimate "estimated printing time = 1m\nfilament used = 10 g" "PLA" 1) :=
  ⟨by decide,
    copies_clamped_scaling "estimated printing time = 1m\nfilament used = 10 g" "PLA" 3
      ⟨180, ⟨30, 0⟩, none⟩ (by decide)⟩

/-- C6.  The density conversion is exactly
`π·(d/2)²·L/1000·density`, with the density 1.27 for `PETG`
case-insensitively and the PLA value 1.24 for every other name; the §8
numeric check holds within the 0.01 tolerance. -/
theorem density_conversion_formula :
    (∀ (L d : ℝ) (material : String),
        _calc_grams_from_length_mm L material d =
          Real.pi * (d / 2) ^ 2 * L / 1000 *
            (if upperStr material = "PETG" then 1.27 else 1.24)) ∧
    densityOf "petg" = 1.27 ∧ densityOf "PeTg" = 1.27 ∧ densityOf "PLA" = 1.24 ∧
    densityOf "unobtainium" = 1.24 ∧
    |_calc_grams_from_length_mm 1000 "PLA" 1.75 - 2.979| ≤ 0.01 := by
  have hform : ∀ (L d : ℝ) (material : String),
      _calc_grams_from_length_mm L material d =
        Real.pi * (d / 2) ^ 2 * L / 1000 *
          (if upperStr material = "PETG" then 1.27 else 1.24) := by
    intro L d material
    simp only [_calc_grams_from_length_mm, densityOf]
    split_ifs with h
    all_goals push_cast
    all_goals norm_num
  refine ⟨hform, by decide, by decide, by decide, by decide, ?_⟩
  have h1 : (3.141592 : ℝ) < Real.pi := Real.pi_gt_d6
  have h2 : Real.pi < 3.141593 := Real.pi_lt_d6
  rw [hform, if_neg (by decide)]
  rw [abs_le]
  norm_num
  constructor <;> nlinarith

/-- `parseDec` never yields a negative value (its capture has no sign). -/
theorem parseDec_nonneg (l : List Char) : 0 ≤ parseDec l := by
  simp only [parseDec]
  split
  · exact add_nonneg (Nat.cast_nonneg _) (by rw [Rat.mkRat_eq_div]; positivity)
  · exact Nat.cast_nonneg _

/-- A value extracted by `eqNumGroup` is non-negative. -/
theorem eqNumGroup_nonneg (r : List Char) (v : ℚ) (rest : List Char)
    (h : eqNumGroup r = some (v, rest)) : 0 ≤ v := by
  unfold eqNumGroup at h
  split at h
  · split at h
    · cases h
    · injection h with h2
      injection h2 with hv hr
      subst hv
      exact parseDec_nonneg _
  · cases h

/-- Propagation of non-negativity through a leftmost-match scan. -/
theorem scanFor_nonneg (f : List Char → Option ℚ)
    (hf : ∀ l v, f l = some v → 0 ≤ v) :
    ∀ l v, scanFor f l = some v → 0 ≤ v := by
  intro l
  induction l with
  | nil =>
      intro v h
      simp only [scanFor] at h
      exact hf [] v h
  | cons c cs ih =>
      intro v h
      simp only [scanFor] at h
      rcases hfc : f (c :: cs) with _ | w
      · rw [hfc] at h
        exact ih v h
      · rw [hfc] at h
        injection h with h2
        subst h2
        exact hf _ _ hfc

/-- Propagation of non-negativity through the line scan. -/
theorem firstLine_nonneg (f : List Char → Option ℚ)
    (hf : ∀ l v, f l = some v → 0 ≤ v) :
    ∀ ls v, firstLine f ls = some v → 0 ≤ v := by
  intro ls
  induction ls with
  | nil => intro v h; cases h
  | cons l ls ih =>
      intro v h
      simp only [firstLine] at h
      rcases hfc : f l with _ | w
      · rw [hfc] at h
        exact ih v h
      · rw [hfc] at h
        injection h with h2
        subst h2
        exact hf _ _ hfc

/-- A gram value matched by the first gram pattern is non-negative. -/
theorem gramPat1_nonneg (l : List Char) (v : ℚ) (h : gramPat1 l = some v) : 0 ≤ v := by
  unfold gramPat1 at h
  rcases h1 : matchLit "filament used [g]".toList l with _ | r <;> simp only [h1] at h
  · cases h
  · rcases h2 : eqNumGroup r with _ | ⟨w, rest⟩ <;> simp only [h2] at h
    · cases h
    · injection h with h3
      subst h3
      exact eqNumGroup_nonneg r _ rest h2

/-- A gram value matched by the second gram pattern is non-negative. -/
theorem gramPat2_nonneg (l : List Char) (v : ℚ) (h : gramPat2 l = some v) : 0 ≤ v := by
  unfold gramPat2 at h
  rcases h1 : matchLit "filament used".toList l with _ | r <;> simp only [h1] at h
  · cases h
  · rcases h2 : eqNumGroup r with _ | ⟨w, rest⟩ <;> simp only [h2] at h
    · cases h
    · by_cases hu : unitAfter 'g' rest = true
      · rw [if_pos hu] at h
        injection h with h3
        subst h3
        exact eqNumGroup_nonneg r _ rest h2
      · rw [if_neg hu] at h
        cases h

/-- A gram value matched by the third gram pattern is non-negative. -/
theorem gramPat3_nonneg (l : List Char) (v : ℚ) (h : gramPat3 l = some v) : 0 ≤ v := by
  unfold gramPat3 at h
  rcases h1 : matchLit "filament used:".toList l with _ | r <;> simp only [h1] at h
  · cases h
  · split at h
    · cases h
    · split at h
      · injection h with h3
        subst h3
        exact parseDec_nonneg _
      · cases h

/-- First tier of the mass estimator on a line yields non-negative values. -/
theorem lineGram_nonneg (l : List Char) (v : ℚ) (h : lineGram l = some v) : 0 ≤ v := by
  unfold lineGram at h
  rcases s1 : scanFor gramPat1 l with _ | w <;> simp only [s1] at h
  · rcases s2 : scanFor gramPat2 l with _ | w <;> simp only [s2] at h
    · exact scanFor_nonneg gramPat3 gramPat3_nonneg l v h
    · injection h with h3
      subst h3
      exact scanFor_nonneg gramPat2 gramPat2_nonneg l _ s2
  · injection h with h3
    subst h3
    exact scanFor_nonneg gramPat1 gramPat1_nonneg l _ s1

/-- The direct-gram scan only yields non-negative masses. -/
theorem findGram_nonneg (gcode : String) (v : ℚ) (h : findGram gcode = some v) : 0 ≤ v :=
  firstLine_nonneg lineGram lineGram_nonneg _ v h

/-- A length from the first length pattern is non-negative. -/
theorem lenPatMm1_nonneg (l : List Char) (v : ℚ) (h : lenPatMm1 l = some v) : 0 ≤ v := by
  unfold lenPatMm1 at h
  rcases h1 : matchLit "filament used [mm]".toList l with _ | r <;> simp only [h1] at h
  · cases h
  · rcases h2 : eqNumGroup r with _ | ⟨w, rest⟩ <;> simp only [h2] at h
    · cases h
    · injection h with h3
      subst h3
      exact eqNumGroup_nonneg r _ rest h2

/-- A length from the second length pattern is non-negative. -/
theorem lenPatMm2_nonneg (l : List Char) (v : ℚ) (h : lenPatMm2 l = some v) : 0 ≤ v := by
  unfold lenPatMm2 at h
  rcases h1 : matchLit "filament used".toList l with _ | r <;> simp only [h1] at h
  · cases h
  · rcases h2 : eqNumGroup r with _ | ⟨w, rest⟩ <;> simp only [h2] at h
    · cases h
    · split at h
      · split at h
        · injection h with h3
          subst h3
          exact eqNumGroup_nonneg r _ rest h2
        · cases h
      · cases h

/-- A length from the metre pattern is non-negative. -/
theorem lenPatM_nonneg (l : List Char) (v : ℚ) (h : lenPatM l = some v) : 0 ≤ v := by
  unfold lenPatM at h
  rcases h1 : matchLit "filament used".toList l with _ | r <;> simp only [h1] at h
  · cases h
  · rcases h2 : eqNumGroup r with _ | ⟨w, rest⟩ <;> simp only [h2] at h
    · cases h
    · split at h
      · split at h
        · split at h
          · injection h with h3
            subst h3
            exact eqNumGroup_nonneg r _ rest h2
          · split at h
            · cases h
            · injection h with h3
              subst h3
              exact eqNumGroup_nonneg r _ rest h2
        · cases h
      · cases h

/-- Second tier of the mass estimator on a line yields non-negative
millimetre values. -/
theorem lineLen_nonneg (l : List Char) (v : ℚ) (h : lineLen l = some v) : 0 ≤ v := by
  unfold lineLen at h
  rcases s1 : scanFor lenPatMm1 l with _ | w <;> simp only [s1] at h
  · rcases s2 : scanFor lenPatMm2 l with _ | w <;> simp only [s2] at h
    · rcases s3 : scanFor lenPatM l with _ | w <;> simp only [s3] at h
      · cases h
      · injection h with h3
        subst h3
        have := scanFor_nonneg lenPatM lenPatM_nonneg l _ s3
        nlinarith
    · injection h with h3
      subst h3
      exact scanFor_nonneg lenPatMm2 lenPatMm2_nonneg l _ s2
  · injection h with h3
    subst h3
    exact scanFor_nonneg lenPatMm1 lenPatMm1_nonneg l _ s1

/-- The length-summary scan only yields non-negative lengths. -/
theorem findLength_nonneg (gcode : String) (v : ℚ) (h : findLength gcode = some v) :
    0 ≤ v :=
  firstLine_nonneg lineLen lineLen_nonneg _ v h

/-- Both densities of the material table are positive. -/
theorem densityOf_pos (material : String) : 0 < densityOf material := by
  unfold densityOf
  split_ifs <;> norm_num

/-- The `π`-coefficient produced by the density conversion of a
non-negative length is non-negative. -/
theorem calcGrams_b_nonneg (L : ℚ) (material : String) (d : ℚ) (h : 0 ≤ L) :
    0 ≤ (calcGrams L material d).b := by
  simp only [calcGrams]
  exact mul_nonneg
    (div_nonneg (mul_nonneg (mul_self_nonneg _) h) (by norm_num))
    (le_of_lt (densityOf_pos material))

/-- The density conversion of a positive length at the default filament
diameter is a non-zero mass. -/
theorem calcGrams_default_ne_zero (L : ℚ) (material : String) (h : 0 < L) :
    calcGrams L material ≠ 0 := by
  intro heq
  have hb : (calcGrams L material).b = 0 := by rw [heq]; rfl
  simp only [calcGrams] at hb
  have hpos : 0 < (7/4/2 : ℚ) * (7/4/2) * L / 1000 * densityOf material :=
    mul_pos (div_pos (mul_pos (by norm_num) h) (by norm_num)) (densityOf_pos material)
  linarith

/-- Both exact components of the Mass Estimator's result are
non-negative. -/
theorem parse_filament_g_nonneg (gcode material : String) (d : ℚ) :
    0 ≤ (parse_filament_g gcode material d).a ∧
      0 ≤ (parse_filament_g gcode material d).b := by
  unfold parse_filament_g
  rcases h1 : findGram gcode with _ | v <;> simp only [h1]
  · rcases h2 : findLength gcode with _ | L <;> simp only [h2]
    · split_ifs with he
      · exact ⟨le_refl _, le_refl _⟩
      · exact ⟨le_of_eq rfl, calcGrams_b_nonneg _ _ _ (le_max_left 0 _)⟩
    · exact ⟨le_of_eq rfl, calcGrams_b_nonneg _ _ _ (findLength_nonneg gcode L h2)⟩
  · exact ⟨findGram_nonneg gcode v h1, le_refl _⟩

/-- Both exact components of the post-fallback mass are non-negative. -/
theorem massFinal_nonneg (gcode material : String) :
    0 ≤ (massFinal gcode material).a ∧ 0 ≤ (massFinal gcode material).b := by
  simp only [massFinal]
  split_ifs with hf
  · exact ⟨le_of_eq rfl, calcGrams_b_nonneg _ _ _ (le_max_left 0 _)⟩
  · exact parse_filament_g_nonneg gcode material _

/-- A `MassVal` with non-negative components denotes a non-negative real. -/
theorem massval_toReal_nonneg (m : MassVal) (ha : 0 ≤ m.a) (hb : 0 ≤ m.b) :
    0 ≤ m.toReal := by
  unfold MassVal.toReal
  have ha' : (0:ℝ) ≤ (m.a : ℝ) := by exact_mod_cast ha
  have hb' : (0:ℝ) ≤ (m.b : ℝ) := by exact_mod_cast hb
  exact add_nonneg ha' (mul_nonneg hb' (le_of_lt Real.pi_pos))

/-- Two-decimal rounding preserves non-negativity. -/
theorem round2_nonneg (x : ℝ) (h : 0 ≤ x) : 0 ≤ round2 x := by
  unfold round2
  apply div_nonneg _ (by norm_num)
  have hz : (0:ℤ) ≤ round (x * 100) := by
    rw [round_eq]
    apply Int.floor_nonneg.mpr
    linarith
  exact_mod_cast hz

/-- The time parser yields `-1` or a non-negative duration. -/
theorem parse_time_seconds_ge_neg_one (txt : String) : -1 ≤ parse_time_seconds txt := by
  simp only [parse_time_seconds]
  split
  · exact le_refl _
  · exact le_trans (by norm_num) (Int.natCast_nonneg _)

/-- C8.  A produced result carries a non-negative time and a non-negative
mass; the parser's only negative output is the `-1` sentinel, and the
integrator's clamp keeps its length non-negative. -/
theorem results_nonnegative :
    (∀ (gcode material : String) (c : ℤ) (r : Resp),
        estimate gcode material c = Except.ok r →
        0 ≤ r.print_time_seconds ∧ 0 ≤ filament_g r) ∧
    (∀ txt : String, -1 ≤ parse_time_seconds txt) ∧
    (∀ gcode : String, 0 ≤ _extrusion_length_mm_from_e_axis gcode) := by
  refine ⟨?_, parse_time_seconds_ge_neg_one, fun g => le_max_left 0 _⟩
  intro gcode material c r h
  rw [estimate_eq] at h
  by_cases ht : parse_time_seconds gcode < 0
  · rw [if_pos ht] at h
    cases h
  · rw [if_neg ht] at h
    injection h with h2
    subst h2
    constructor
    · exact mul_nonneg (not_lt.mp ht) (le_trans zero_le_one (le_max_left 1 c))
    · simp only [filament_g]
      apply round2_nonneg
      rw [massval_scale_toReal]
      apply mul_nonneg
      · have hq : (0:ℚ) ≤ ((max 1 c : ℤ) : ℚ) := by
          have : (0:ℤ) ≤ max 1 c := le_trans zero_le_one (le_max_left 1 c)
          exact_mod_cast this
        exact_mod_cast hq
      · exact massval_toReal_nonneg _ (massFinal_nonneg gcode material).1
          (massFinal_nonneg gcode material).2

/-- Witness for C8 at a successful concrete request. -/
theorem results_nonnegative_witness :
    0 ≤ ((⟨180, ⟨30, 0⟩, none⟩ : Resp)).print_time_seconds ∧
      0 ≤ filament_g ⟨180, ⟨30, 0⟩, none⟩ :=
  results_nonnegative.1 "estimated printing time = 1m\nfilament used = 10 g" "PLA" 3
    ⟨180, ⟨30, 0⟩, none⟩ (by decide)

/-- Scaling the zero mass gives the zero mass. -/
theorem massval_scale_zero (q : ℚ) : MassVal.scale q 0 = 0 := by
  simp only [MassVal.scale]
  have : ((0 : MassVal)).a = 0 ∧ ((0 : MassVal)).b = 0 := ⟨rfl, rfl⟩
  rw [this.1, this.2]
  simp only [mul_zero]
  rfl

/-- Pointwise-equal matchers scan identically. -/
theorem scanFor_congr {α : Type} (f g : List Char → Option α)
    (h : ∀ x, f x = g x) : ∀ l, scanFor f l = scanFor g l := by
  intro l
  induction l with
  | nil => exact h []
  | cons c cs ih =>
      simp only [scanFor]
      rw [h (c :: cs), ih]

/-- Scanning commutes with mapping the matched value. -/
theorem scanFor_map {β γ : Type} (f : List Char → Option β) (g : β → γ) :
    ∀ l, scanFor (fun x => (f x).map g) l = (scanFor f l).map g := by
  intro l
  induction l with
  | nil => simp [scanFor]
  | cons c cs ih =>
      simp only [scanFor]
      rcases hf : f (c :: cs) with _ | v <;> simp [hf, ih]

/-- Pointwise-equal line matchers scan identically. -/
theorem firstLine_congr {α : Type} (f g : List Char → Option α)
    (h : ∀ x, f x = g x) : ∀ ls, firstLine f ls = firstLine g ls := by
  intro ls
  induction ls with
  | nil => rfl
  | cons l ls ih =>
      simp only [firstLine]
      rw [h l, ih]

/-- The line scan commutes with mapping the matched value. -/
theorem firstLine_map {β γ : Type} (f : List Char → Option β) (g : β → γ) :
    ∀ ls, firstLine (fun x => (f x).map g) ls = (firstLine f ls).map g := by
  intro ls
  induction ls with
  | nil => rfl
  | cons l ls ih =>
      simp only [firstLine]
      rcases hf : f l with _ | v <;> simp [hf, ih]

/-- `eqNumGroup` is the capture form with the value read off. -/
theorem eqNumGroup_eq_map (r : List Char) :
    eqNumGroup r = (eqNumGroupC r).map (fun p => (parseDec p.1, p.2)) := by
  unfold eqNumGroup eqNumGroupC
  split
  · split <;> rfl
  · rfl

/-- The first gram pattern factors through its capture. -/
theorem gramPat1_eq_map (l : List Char) : gramPat1 l = (gramCap1 l).map parseDec := by
  unfold gramPat1 gramCap1
  rcases h1 : matchLit "filament used [g]".toList l with _ | r <;> simp only [h1]
  · rfl
  · rw [eqNumGroup_eq_map]
    rcases h2 : eqNumGroupC r with _ | ⟨ds, rest⟩ <;> simp [h2]

/-- The second gram pattern factors through its capture. -/
theorem gramPat2_eq_map (l : List Char) : gramPat2 l = (gramCap2 l).map parseDec := by
  unfold gramPat2 gramCap2
  rcases h1 : matchLit "filament used".toList l with _ | r <;> simp only [h1]
  · rfl
  · rw [eqNumGroup_eq_map]
    rcases h2 : eqNumGroupC r with _ | ⟨ds, rest⟩ <;> simp [h2]

/-- The third gram pattern factors through its capture. -/
theorem gramPat3_eq_map (l : List Char) : gramPat3 l = (gramCap3 l).map parseDec := by
  unfold gramPat3 gramCap3
  rcases h1 : matchLit "filament used:".toList l with _ | r <;> simp only [h1]
  · rfl
  · split_ifs <;> simp

/-- Tier 1 on a line factors through its capture. -/
theorem lineGram_eq_map (l : List Char) : lineGram l = (lineGramC l).map parseDec := by
  have e1 : scanFor gramPat1 l = (scanFor gramCap1 l).map parseDec :=
    (scanFor_congr _ _ gramPat1_eq_map l).trans (scanFor_map gramCap1 parseDec l)
  have e2 : scanFor gramPat2 l = (scanFor gramCap2 l).map parseDec :=
    (scanFor_congr _ _ gramPat2_eq_map l).trans (scanFor_map gramCap2 parseDec l)
  have e3 : scanFor gramPat3 l = (scanFor gramCap3 l).map parseDec :=
    (scanFor_congr _ _ gramPat3_eq_map l).trans (scanFor_map gramCap3 parseDec l)
  unfold lineGram lineGramC
  rw [e1, e2, e3]
  rcases h1 : scanFor gramCap1 l with _ | ds <;> simp only [h1, Option.map_some', Option.map_none']
  rcases h2 : scanFor gramCap2 l with _ | ds <;> simp [h2]

/-- The gram scan factors through its capture. -/
theorem findGram_eq_map (gcode : String) :
    findGram gcode = (findGramC gcode).map parseDec := by
  unfold findGram findGramC
  exact (firstLine_congr _ _ lineGram_eq_map _).trans (firstLine_map lineGramC parseDec _)

/-- The first length pattern factors through its capture. -/
theorem lenPatMm1_eq_map (l : List Char) :
    lenPatMm1 l = (lenCapMm1 l).map parseDec := by
  unfold lenPatMm1 lenCapMm1
  rcases h1 : matchLit "filament used [mm]".toList l with _ | r <;> simp only [h1]
  · rfl
  · rw [eqNumGroup_eq_map]
    rcases h2 : eqNumGroupC r with _ | ⟨ds, rest⟩ <;> simp [h2]

/-- The second length pattern factors through its capture. -/
theorem lenPatMm2_eq_map (l : List Char) :
    lenPatMm2 l = (lenCapMm2 l).map parseDec := by
  unfold lenPatMm2 lenCapMm2
  rcases h1 : matchLit "filament used".toList l with _ | r <;> simp only [h1]
  · rfl
  · rw [eqNumGroup_eq_map]
    rcases h2 : eqNumGroupC r with _ | ⟨ds, rest⟩ <;> simp [h2]
    rcases h3 : rest.dropWhile isSpaceChar with _ | ⟨c1, _ | ⟨c2, r4⟩⟩ <;> simp [h3]

/-- The metre pattern factors through its capture. -/
theorem lenPatM_eq_map (l : List Char) : lenPatM l = (lenCapM l).map parseDec := by
  unfold lenPatM lenCapM
  rcases h1 : matchLit "filament used".toList l with _ | r <;> simp only [h1]
  · rfl
  · rw [eqNumGroup_eq_map]
    rcases h2 : eqNumGroupC r with _ | ⟨ds, rest⟩ <;> simp [h2]
    rcases h3 : rest.dropWhile isSpaceChar with _ | ⟨c1, _ | ⟨c2, r4⟩⟩ <;> simp [h3]
    all_goals split_ifs <;> simp

/-- Tier 2 on a line factors through its capture and unit flag. -/
theorem lineLen_eq_map (l : List Char) :
    lineLen l =
      (lineLenC l).map (fun p => if p.2 then parseDec p.1 * 1000 else parseDec p.1) := by
  have e1 : scanFor lenPatMm1 l = (scanFor lenCapMm1 l).map parseDec :=
    (scanFor_congr _ _ lenPatMm1_eq_map l).trans (scanFor_map lenCapMm1 parseDec l)
  have e2 : scanFor lenPatMm2 l = (scanFor lenCapMm2 l).map parseDec :=
    (scanFor_congr _ _ lenPatMm2_eq_map l).trans (scanFor_map lenCapMm2 parseDec l)
  have e3 : scanFor lenPatM l = (scanFor lenCapM l).map parseDec :=
    (scanFor_congr _ _ lenPatM_eq_map l).trans (scanFor_map lenCapM parseDec l)
  unfold lineLen lineLenC
  rw [e1, e2, e3]
  rcases h1 : scanFor lenCapMm1 l with _ | ds <;> simp only [h1, Option.map_some', Option.map_none']
  · rcases h2 : scanFor lenCapMm2 l with _ | ds <;>
      simp only [h2, Option.map_some', Option.map_none']
    · rcases h3 : scanFor lenCapM l with _ | ds <;> simp [h3]
    · simp
  · simp

/-- The length scan factors through its capture and unit flag. -/
theorem findLength_eq_map (gcode : String) :
    findLength gcode =
      (findLengthC gcode).map
        (fun p => if p.2 then parseDec p.1 * 1000 else parseDec p.1) := by
  unfold findLength findLengthC
  exact (firstLine_congr _ _ lineLen_eq_map _).trans (firstLine_map lineLenC _ _)

/-- A successful `float` conversion reads the capture's decimal value. -/
theorem floatOfCapture_some (ds : List Char) (v : ℚ)
    (h : floatOfCapture ds = some v) : v = parseDec ds := by
  unfold floatOfCapture at h
  split at h
  · injection h with h2
    exact h2.symm
  · cases h

/-- When the mass estimator returns (rather than raising `ValueError`), its
value is the one the value-level pipeline computes. -/
theorem parse_filament_g_exn_ok (gcode material : String) (d : ℚ) (g : MassVal)
    (h : parse_filament_g_exn gcode material d = Except.ok g) :
    g = parse_filament_g gcode material d := by
  unfold parse_filament_g_exn at h
  unfold parse_filament_g
  rcases h1 : findGramC gcode with _ | ds
  · simp only [h1] at h
    have hfg : findGram gcode = none := by rw [findGram_eq_map, h1]; rfl
    simp only [hfg]
    rcases h2 : findLengthC gcode with _ | ⟨ds, isM⟩
    · simp only [h2] at h
      have hfl : findLength gcode = none := by rw [findLength_eq_map, h2]; rfl
      simp only [hfl]
      split_ifs at h ⊢ with he
      · injection h with h3
        exact h3.symm
      · injection h with h3
        exact h3.symm
    · simp only [h2] at h
      have hfl : findLength gcode =
          some (if isM then parseDec ds * 1000 else parseDec ds) := by
        rw [findLength_eq_map, h2]
        rfl
      simp only [hfl]
      rcases h3 : floatOfCapture ds with _ | v
      · rw [h3] at h
        cases h
      · rw [h3] at h
        injection h with h4
        rw [← h4, floatOfCapture_some ds v h3]
  · simp only [h1] at h
    have hfg : findGram gcode = some (parseDec ds) := by
      rw [findGram_eq_map, h1]
      rfl
    simp only [hfg]
    rcases h3 : floatOfCapture ds with _ | v
    · rw [h3] at h
      cases h
    · rw [h3] at h
      injection h with h4
      rw [← h4, floatOfCapture_some ds v h3]

/-- The full handler coincides with the value-level `estimate` whenever the
mass estimator returns. -/
theorem estimate_exn_eq_estimate (gcode material : String) (copies : ℤ) (g : MassVal)
    (h : parse_filament_g_exn gcode material = Except.ok g) :
    estimate_exn gcode material copies = estimate gcode material copies := by
  have hg := parse_filament_g_exn_ok gcode material (7/4) g h
  unfold estimate_exn estimate
  simp only [h]
  rw [← hg]

/-- C9.  Zero mass never fails a request whose time summary parses and
whose Mass Estimator returns a value: if that value is zero but the
integrator finds forward extrusion, the orchestrator substitutes the
density-converted integrator length; if mass is still zero it succeeds with
zero mass and attaches the first 60 lines and the computed extrusion length
as diagnostics.  (A `ValueError` from `float(...)` inside the Mass
Estimator is a separate failure mode, modelled by `estimate_exn`'s error
branch.) -/
theorem zero_mass_never_error (gcode material : String) (c : ℤ) (g : MassVal)
    (hg : parse_filament_g_exn gcode material = Except.ok g)
    (ht : 0 ≤ parse_time_seconds gcode) :
    (∃ r, estimate_exn gcode material c = Except.ok r) ∧
    (g = 0 → 0 < _extrusion_length_mm_from_e_axis gcode →
      ∀ r, estimate_exn gcode material c = Except.ok r →
        r.massScaled =
          MassVal.scale (max 1 c : ℤ)
            (calcGrams (_extrusion_length_mm_from_e_axis gcode) material) ∧
        r.debug = none) ∧
    (g = 0 → _extrusion_length_mm_from_e_axis gcode ≤ 0 →
      ∀ r, estimate_exn gcode material c = Except.ok r →
        r.massScaled = 0 ∧
        r.debug = some (headerLines gcode, _extrusion_length_mm_from_e_axis gcode)) := by
  have hEq := estimate_exn_eq_estimate gcode material c g hg
  have hgv := parse_filament_g_exn_ok gcode material (7/4) g hg
  have hnt : ¬ (parse_time_seconds gcode < 0) := not_lt.mpr ht
  refine ⟨⟨_, by rw [hEq, estimate_eq, if_neg hnt]⟩, ?_, ?_⟩
  · intro h0 hpos r hr
    rw [hEq] at hr
    have h0' : parse_filament_g gcode material = 0 := hgv.symm.trans h0
    have hmf : massFinal gcode material =
        calcGrams (_extrusion_length_mm_from_e_axis gcode) material := by
      simp only [massFinal]
      rw [if_pos ⟨h0', hpos⟩]
    rw [estimate_eq, if_neg hnt] at hr
    injection hr with h2
    subst h2
    constructor
    · simp only [hmf]
    · simp only [hmf]
      rw [if_neg (calcGrams_default_ne_zero _ material hpos)]
  · intro h0 hle r hr
    rw [hEq] at hr
    have h0' : parse_filament_g gcode material = 0 := hgv.symm.trans h0
    have hmf : massFinal gcode material = 0 := by
      simp only [massFinal]
      rw [if_neg (by
        rintro ⟨-, hpos⟩
        exact absurd hpos (not_lt.mpr hle))]
      exact h0'
    rw [estimate_eq, if_neg hnt] at hr
    injection hr with h2
    subst h2
    constructor
    · simp only [hmf, massval_scale_zero]
    · simp only [hmf, if_true]

/-- Witness for C9 at a document with a time summary, no mass data and no
extrusion moves. -/
theorem zero_mass_never_error_witness :
    (∃ r, estimate_exn "estimated printing time = 5s" "PLA" 1 = Except.ok r) ∧
      ((⟨5, 0, some (["estimated printing time = 5s"], 0)⟩ : Resp).massScaled = 0 ∧
        (⟨5, 0, some (["estimated printing time = 5s"], 0)⟩ : Resp).debug =
          some (headerLines "estimated printing time = 5s",
            _extrusion_length_mm_from_e_axis "estimated printing time = 5s")) :=
  ⟨(zero_mass_never_error "estimated printing time = 5s" "PLA" 1 0 (by decide)
      (by decide)).1,
    (zero_mass_never_error "estimated printing time = 5s" "PLA" 1 0 (by decide)
      (by decide)).2.2 rfl (by decide)
      ⟨5, 0, some (["estimated printing time = 5s"], 0)⟩ (by decide)⟩

example :
    estimate_exn "filament used = . g\nestimated printing time = 5s" "PLA" 1 =
      Except.error "could not convert string to float" := by decide
example :
    parse_filament_g_exn "filament used = 1.2.3 g" "PLA" =
      Except.error "could not convert string to float" := by decide
example :
    estimate_exn "estimated printing time = 1m\nfilament used = 10 g" "PLA" 3 =
      estimate "estimated printing time = 1m\nfilament used = 10 g" "PLA" 3 := by decide

theorem digitChar_isDigit (d : ℕ) (h : d < 10) : (digitChar d).isDigit = true := by
  interval_cases d <;> decide

theorem digitChar_toNat (d : ℕ) (h : d < 10) : (digitChar d).toNat - 48 = d := by
  interval_cases d <;> decide

theorem digitChar_time (d : ℕ) (h : d < 10) : isTimeChar (digitChar d) = true := by
  interval_cases d <;> decide

theorem digitChar_not_space (d : ℕ) (h : d < 10) : isSpaceChar (digitChar d) = false := by
  interval_cases d <;> decide

theorem digitChar_ne_eq (d : ℕ) (h : d < 10) : digitChar d ≠ '=' := by
  interval_cases d <;> decide

theorem digitChar_ne_unit (d : ℕ) (h : d < 10) (u : Char)
    (hu : u = 'h' ∨ u = 'm' ∨ u = 's') : digitChar d ≠ u := by
  rcases hu with rfl | rfl | rfl <;> interval_cases d <;> decide

theorem natChars_spec (n : ℕ) :
    natChars n ≠ [] ∧ ∀ c ∈ natChars n, ∃ d, d < 10 ∧ c = digitChar d := by
  induction n using Nat.strong_induction_on with
  | _ n ih =>
    rw [natChars]
    split_ifs with h
    · refine ⟨by simp, ?_⟩
      intro c hc
      simp only [List.mem_singleton] at hc
      exact ⟨n, h, hc⟩
    · have prev := ih (n / 10) (Nat.div_lt_self (by omega) (by omega))
      refine ⟨by simp, ?_⟩
      intro c hc
      rcases List.mem_append.mp hc with hc | hc
      · exact prev.2 c hc
      · simp only [List.mem_singleton] at hc
        exact ⟨n % 10, Nat.mod_lt _ (by omega), hc⟩

theorem natChars_cons (n : ℕ) : ∃ d tl, d < 10 ∧ natChars n = digitChar d :: tl := by
  rcases hne : natChars n with _ | ⟨c, tl⟩
  · exact absurd hne (natChars_spec n).1
  · have hc : c ∈ natChars n := by rw [hne]; exact List.mem_cons_self _ _
    obtain ⟨d, hd, rfl⟩ := (natChars_spec n).2 c hc
    exact ⟨d, tl, hd, rfl⟩

theorem decVal_append_digit (l : List Char) (c : Char) :
    decVal (l ++ [c]) = 10 * decVal l + (c.toNat - 48) := by
  simp [decVal, List.foldl_append]

theorem decVal_natChars (n : ℕ) : decVal (natChars n) = n := by
  induction n using Nat.strong_induction_on with
  | _ n ih =>
    rw [natChars]
    split_ifs with h
    · show decVal [digitChar n] = n
      simp only [decVal, List.foldl_cons, List.foldl_nil, Nat.mul_zero, Nat.zero_add]
      exact digitChar_toNat n h
    · rw [decVal_append_digit, ih (n / 10) (Nat.div_lt_self (by omega) (by omega)),
        digitChar_toNat (n % 10) (Nat.mod_lt _ (by omega))]
      omega

theorem takeWhile_append_all {p : Char → Bool} {l r : List Char}
    (h : ∀ a ∈ l, p a = true) : (l ++ r).takeWhile p = l ++ r.takeWhile p := by
  induction l with
  | nil => rfl
  | cons a as ih =>
      rw [List.cons_append, List.takeWhile_cons_of_pos (h a (List.mem_cons_self _ _)),
        ih (fun x hx => h x (List.mem_cons_of_mem _ hx))]
      rfl

theorem dropWhile_append_all {p : Char → Bool} {l r : List Char}
    (h : ∀ a ∈ l, p a = true) : (l ++ r).dropWhile p = r.dropWhile p := by
  induction l with
  | nil => rfl
  | cons a as ih =>
      rw [List.cons_append, List.dropWhile_cons_of_pos (h a (List.mem_cons_self _ _))]
      exact ih (fun x hx => h x (List.mem_cons_of_mem _ hx))

theorem takeWhile_all {p : Char → Bool} {l : List Char}
    (h : ∀ a ∈ l, p a = true) : l.takeWhile p = l := by
  have := takeWhile_append_all (r := []) h
  simpa using this

theorem mem_of_dropWhile {p : Char → Bool} {l : List Char} {c : Char}
    (h : c ∈ l.dropWhile p) : c ∈ l := by
  induction l with
  | nil => simp at h
  | cons a as ih =>
      by_cases hp : p a = true
      · rw [List.dropWhile_cons_of_pos hp] at h
        exact List.mem_cons_of_mem _ (ih h)
      · rw [List.dropWhile_cons_of_neg hp] at h
        exact h

theorem matchLit_self_append (p r : List Char) (h : ∀ c ∈ p, asciiLower c = c) :
    matchLit p (p ++ r) = some r := by
  induction p with
  | nil => rfl
  | cons c cs ih =>
      simp only [List.cons_append, matchLit]
      rw [h c (List.mem_cons_self _ _), if_pos rfl]
      exact ih (fun x hx => h x (List.mem_cons_of_mem _ hx))

theorem tryDots_cons (c : Char) (cs : List Char) :
    tryDots (c :: cs) =
      match (if c ≠ '\n' then tryDots cs else none) with
      | some g => some g
      | none => if c = '=' then timeGroup cs else none := rfl

theorem tryDots_none (l : List Char) (h : ∀ c ∈ l, c ≠ '=') : tryDots l = none := by
  induction l with
  | nil => rfl
  | cons c cs ih =>
      have hc : c ≠ '=' := h c (List.mem_cons_self _ _)
      have ih' := ih (fun x hx => h x (List.mem_cons_of_mem _ hx))
      rw [tryDots_cons]
      have hinner : (if c ≠ '\n' then tryDots cs else none) = none := by
        split_ifs
        · exact ih'
        · rfl
      rw [hinner]
      exact if_neg hc

theorem tryDots_canonical (expr : List Char) (h : ∀ c ∈ expr, c ≠ '=') :
    tryDots (' ' :: '=' :: ' ' :: expr) = timeGroup (' ' :: expr) := by
  have h1 : tryDots (' ' :: expr) = none := by
    apply tryDots_none
    intro c hc
    rcases List.mem_cons.mp hc with rfl | hc
    · decide
    · exact h c hc
  have h2 : tryDots ('=' :: ' ' :: expr) = timeGroup (' ' :: expr) := by
    rw [tryDots_cons]
    have hinner : (if ('=' : Char) ≠ '\n' then tryDots (' ' :: expr) else none) = none := by
      rw [if_pos (by decide)]
      exact h1
    rw [hinner]
    exact if_pos rfl
  rw [tryDots_cons]
  have hinner : (if (' ' : Char) ≠ '\n' then tryDots ('=' :: ' ' :: expr) else none) =
      timeGroup (' ' :: expr) := by
    rw [if_pos (by decide)]
    exact h2
  rw [hinner]
  cases hg : timeGroup (' ' :: expr) with
  | none => exact if_neg (by decide)
  | some g => rfl

theorem timeGroup_canonical (d : ℕ) (hd : d < 10) (tl : List Char)
    (hall : ∀ c ∈ (digitChar d :: tl), isTimeChar c = true) :
    timeGroup (' ' :: digitChar d :: tl) = some (digitChar d :: tl) := by
  have hns : isSpaceChar (digitChar d) = false := digitChar_not_space d hd
  simp only [timeGroup]
  rw [List.dropWhile_cons_of_pos (by decide),
    List.dropWhile_cons_of_neg (by simp [hns])]
  simp only [digitChar_time d hd, if_pos]
  rw [takeWhile_all hall]

theorem searchTime_cons (c : Char) (cs : List Char) :
    searchTime (c :: cs) =
      match matchLit "estimated printing time".toList (c :: cs) with
      | some rest =>
          (match tryDots rest with
           | some g => some g
           | none => searchTime cs)
      | none => searchTime cs := rfl

theorem searchTime_canonical (rest : List Char) (g : List Char)
    (hg : tryDots rest = some g) :
    searchTime ("estimated printing time".toList ++ rest) = some g := by
  have hphrase : matchLit "estimated printing time".toList
      ("estimated printing time".toList ++ rest) = some rest :=
    matchLit_self_append _ _ (by decide)
  have hcc : "estimated printing time".toList ++ rest =
      'e' :: ("stimated printing time".toList ++ rest) := rfl
  rw [hcc, searchTime_cons, ← hcc]
  simp only [hphrase, hg]

theorem scanUnit_cons (u c : Char) (cs : List Char) :
    scanUnit u (c :: cs) =
      (if c.isDigit then
        match ((c :: cs).dropWhile Char.isDigit).dropWhile isSpaceChar with
        | x :: _ =>
            if x = u then some (decVal ((c :: cs).takeWhile Char.isDigit))
            else scanUnit u cs
        | [] => scanUnit u cs
      else scanUnit u cs) := rfl

theorem scanUnit_digits_hit (u : Char) (l : List Char) (hne : l ≠ [])
    (hdig : ∀ c ∈ l, c.isDigit = true) (u' : Char) (rest : List Char)
    (hd : u'.isDigit = false) (hs : isSpaceChar u' = false) (hl : u' = u) :
    scanUnit u (l ++ u' :: rest) = some (decVal l) := by
  cases l with
  | nil => exact absurd rfl hne
  | cons c cs =>
      rw [List.cons_append, scanUnit_cons,
        if_pos (hdig c (List.mem_cons_self _ _))]
      have htw : (c :: (cs ++ u' :: rest)).takeWhile Char.isDigit = c :: cs := by
        have h1 := takeWhile_append_all (r := u' :: rest) hdig
        rw [List.cons_append] at h1
        rw [h1, List.takeWhile_cons_of_neg (by simp [hd]), List.append_nil]
      have hdw : ((c :: (cs ++ u' :: rest)).dropWhile Char.isDigit).dropWhile isSpaceChar =
          u' :: rest := by
        have h1 := dropWhile_append_all (r := u' :: rest) hdig
        rw [List.cons_append] at h1
        rw [h1, List.dropWhile_cons_of_neg (by simp [hd])]
        exact List.dropWhile_cons_of_neg (by simp [hs])
      rw [hdw]
      show (if u' = u then
          some (decVal ((c :: (cs ++ u' :: rest)).takeWhile Char.isDigit))
        else scanUnit u (cs ++ u' :: rest)) = some (decVal (c :: cs))
      rw [if_pos hl, htw]

theorem scanUnit_skip_comp (u u' : Char) (l rest : List Char)
    (hdig : ∀ c ∈ l, c.isDigit = true) (hd : u'.isDigit = false)
    (hs : isSpaceChar u' = false) (hne : u' ≠ u) :
    scanUnit u (l ++ u' :: ' ' :: rest) = scanUnit u rest := by
  induction l with
  | nil =>
      rw [List.nil_append, scanUnit_cons, if_neg (by simp [hd])]
      rw [scanUnit_cons, if_neg (by decide)]
  | cons c cs ih =>
      rw [List.cons_append, scanUnit_cons,
        if_pos (hdig c (List.mem_cons_self _ _))]
      have hdw : ((c :: (cs ++ u' :: ' ' :: rest)).dropWhile Char.isDigit).dropWhile
          isSpaceChar = u' :: ' ' :: rest := by
        have h1 := dropWhile_append_all (r := u' :: ' ' :: rest) hdig
        rw [List.cons_append] at h1
        rw [h1, List.dropWhile_cons_of_neg (by simp [hd])]
        exact List.dropWhile_cons_of_neg (by simp [hs])
      rw [hdw]
      show (if u' = u then
          some (decVal ((c :: (cs ++ u' :: ' ' :: rest)).takeWhile Char.isDigit))
        else scanUnit u (cs ++ u' :: ' ' :: rest)) = scanUnit u rest
      rw [if_neg hne]
      exact ih (fun x hx => hdig x (List.mem_cons_of_mem _ hx))

theorem scanUnit_none (u : Char) (l : List Char) (h : ∀ c ∈ l, c ≠ u) :
    scanUnit u l = none := by
  induction l with
  | nil => rfl
  | cons c cs ih =>
      have ih' := ih (fun x hx => h x (List.mem_cons_of_mem _ hx))
      rw [scanUnit_cons]
      by_cases hc : c.isDigit = true
      · rw [if_pos hc]
        rcases hr : ((c :: cs).dropWhile Char.isDigit).dropWhile isSpaceChar with _ | ⟨x, xs⟩
        · exact ih'
        · have hx : x ∈ c :: cs := by
            apply mem_of_dropWhile (p := Char.isDigit)
            apply mem_of_dropWhile (p := isSpaceChar)
            rw [hr]
            exact List.mem_cons_self _ _
          show (if x = u then
              some (decVal ((c :: cs).takeWhile Char.isDigit))
            else scanUnit u cs) = none
          rw [if_neg (h x hx)]
          exact ih'
      · rw [if_neg hc]
        exact ih'

theorem natChars_digits (n : ℕ) : ∀ c ∈ natChars n, c.isDigit = true := by
  intro c hc
  obtain ⟨d, hd, rfl⟩ := (natChars_spec n).2 c hc
  exact digitChar_isDigit d hd

theorem scan_hit_comp (u : Char) (n : ℕ) (rest : List Char)
    (hd : u.isDigit = false) (hs : isSpaceChar u = false) :
    scanUnit u (compChars u (some n) ++ rest) = some n := by
  have hsh : compChars u (some n) ++ rest = natChars n ++ (u :: ' ' :: rest) := by
    simp [compChars, List.append_assoc]
  rw [hsh, scanUnit_digits_hit u _ (natChars_spec n).1 (natChars_digits n) u _ hd hs rfl,
    decVal_natChars]

theorem scan_skip_comp (u u' : Char) (o : Option ℕ) (rest : List Char)
    (hd : u'.isDigit = false) (hs : isSpaceChar u' = false) (hne : u' ≠ u) :
    scanUnit u (compChars u' o ++ rest) = scanUnit u rest := by
  cases o with
  | none => rw [show compChars u' none = ([] : List Char) from rfl, List.nil_append]
  | some n =>
      have hsh : compChars u' (some n) ++ rest = natChars n ++ (u' :: ' ' :: rest) := by
        simp [compChars, List.append_assoc]
      rw [hsh]
      exact scanUnit_skip_comp u u' _ rest (natChars_digits n) hd hs hne

theorem compChars_ne_unit (u u' : Char) (o : Option ℕ)
    (hu : u = 'h' ∨ u = 'm' ∨ u = 's') (h1 : u' ≠ u) :
    ∀ c ∈ compChars u' o, c ≠ u := by
  intro c hc
  cases o with
  | none => simp [compChars] at hc
  | some n =>
      simp only [compChars] at hc
      rcases List.mem_append.mp hc with hc | hc
      · obtain ⟨d, hd, rfl⟩ := (natChars_spec n).2 c hc
        exact digitChar_ne_unit d hd u hu
      · have hcc : c = u' ∨ c = ' ' := by simpa using hc
        rcases hcc with rfl | rfl
        · exact h1
        · rcases hu with rfl | rfl | rfl <;> decide

theorem compChars_time (u : Char) (hu : isTimeChar u = true) (o : Option ℕ) :
    ∀ c ∈ compChars u o, isTimeChar c = true := by
  intro c hc
  cases o with
  | none => simp [compChars] at hc
  | some n =>
      simp only [compChars] at hc
      rcases List.mem_append.mp hc with hc | hc
      · obtain ⟨d, hd, rfl⟩ := (natChars_spec n).2 c hc
        exact digitChar_time d hd
      · have hcc : c = u ∨ c = ' ' := by simpa using hc
        rcases hcc with rfl | rfl
        · exact hu
        · decide

theorem compChars_ne_eq (u : Char) (hu : u ≠ '=') (o : Option ℕ) :
    ∀ c ∈ compChars u o, c ≠ '=' := by
  intro c hc
  cases o with
  | none => simp [compChars] at hc
  | some n =>
      simp only [compChars] at hc
      rcases List.mem_append.mp hc with hc | hc
      · obtain ⟨d, hd, rfl⟩ := (natChars_spec n).2 c hc
        exact digitChar_ne_eq d hd
      · have hcc : c = u ∨ c = ' ' := by simpa using hc
        rcases hcc with rfl | rfl
        · exact hu
        · decide

theorem searchTime_expr (expr : List Char) (d : ℕ) (tl : List Char) (hd : d < 10)
    (hexpr : expr = digitChar d :: tl)
    (hall : ∀ c ∈ expr, isTimeChar c = true) (hne : ∀ c ∈ expr, c ≠ '=') :
    searchTime ("estimated printing time = ".toList ++ expr) = some expr := by
  have h3 : "estimated printing time = ".toList ++ expr =
      "estimated printing time".toList ++ (' ' :: '=' :: ' ' :: expr) := rfl
  rw [h3]
  apply searchTime_canonical
  rw [tryDots_canonical expr hne, hexpr]
  rw [timeGroup_canonical d hd tl (hexpr ▸ hall), ← hexpr]

theorem scans_of_expr (oh om os : Option ℕ) :
    scanUnit 'h' (compChars 'h' oh ++ (compChars 'm' om ++ compChars 's' os)) = oh ∧
    scanUnit 'm' (compChars 'h' oh ++ (compChars 'm' om ++ compChars 's' os)) = om ∧
    scanUnit 's' (compChars 'h' oh ++ (compChars 'm' om ++ compChars 's' os)) = os := by
  refine ⟨?_, ?_, ?_⟩
  · cases oh with
    | some n => exact scan_hit_comp 'h' n _ (by decide) (by decide)
    | none =>
        rw [show compChars 'h' none = ([] : List Char) from rfl, List.nil_append]
        apply scanUnit_none
        intro c hc
        rcases List.mem_append.mp hc with hc | hc
        · exact compChars_ne_unit 'h' 'm' om (Or.inl rfl) (by decide) c hc
        · exact compChars_ne_unit 'h' 's' os (Or.inl rfl) (by decide) c hc
  · rw [scan_skip_comp 'm' 'h' oh _ (by decide) (by decide) (by decide)]
    cases om with
    | some n => exact scan_hit_comp 'm' n _ (by decide) (by decide)
    | none =>
        rw [show compChars 'm' none = ([] : List Char) from rfl, List.nil_append]
        apply scanUnit_none
        intro c hc
        exact compChars_ne_unit 'm' 's' os (Or.inr (Or.inl rfl)) (by decide) c hc
  · rw [scan_skip_comp 's' 'h' oh _ (by decide) (by decide) (by decide),
      scan_skip_comp 's' 'm' om _ (by decide) (by decide) (by decide)]
    cases os with
    | some n =>
        rw [← List.append_nil (compChars 's' (some n))]
        exact scan_hit_comp 's' n [] (by decide) (by decide)
    | none => rfl

theorem parse_time_components_exact :
    (∀ oh om os : Option ℕ,
        parse_time_seconds (timeText oh om os) =
          ((oh.getD 0 : ℕ) : ℤ) * 3600 + ((om.getD 0 : ℕ) : ℤ) * 60 +
            ((os.getD 0 : ℕ) : ℤ)) ∧
    parse_time_seconds "estimated printing time = 1h 2m 3s" = 3723 ∧
    parse_time_seconds "estimated printing time = 45s" = 45 ∧
    parse_time_seconds "estimated printing time = 2h" = 7200 := by
  refine ⟨?_, by decide, by decide, by decide⟩
  intro oh om os
  by_cases hnone : oh = none ∧ om = none ∧ os = none
  · obtain ⟨rfl, rfl, rfl⟩ := hnone
    decide
  · obtain ⟨d, tl, hd, hexpr⟩ : ∃ d tl, d < 10 ∧
        compChars 'h' oh ++ (compChars 'm' om ++ compChars 's' os) =
          digitChar d :: tl := by
      cases oh with
      | some n =>
          obtain ⟨d, tl, hd, hnc⟩ := natChars_cons n
          refine ⟨d, (tl ++ ['h', ' ']) ++ (compChars 'm' om ++ compChars 's' os), hd, ?_⟩
          show (natChars n ++ ['h', ' ']) ++ (compChars 'm' om ++ compChars 's' os) = _
          rw [hnc]
          simp [List.append_assoc]
      | none =>
          cases om with
          | some n =>
              obtain ⟨d, tl, hd, hnc⟩ := natChars_cons n
              refine ⟨d, (tl ++ ['m', ' ']) ++ compChars 's' os, hd, ?_⟩
              show [] ++ ((natChars n ++ ['m', ' ']) ++ compChars 's' os) = _
              rw [hnc]
              simp [List.append_assoc]
          | none =>
              cases os with
              | some n =>
                  obtain ⟨d, tl, hd, hnc⟩ := natChars_cons n
                  refine ⟨d, tl ++ ['s', ' '], hd, ?_⟩
                  show [] ++ ([] ++ (natChars n ++ ['s', ' '])) = _
                  rw [hnc]
                  simp [List.append_assoc]
              | none => exact absurd ⟨rfl, rfl, rfl⟩ hnone
    have hall : ∀ c ∈ compChars 'h' oh ++ (compChars 'm' om ++ compChars 's' os),
        isTimeChar c = true := by
      intro c hc
      rcases List.mem_append.mp hc with hc | hc
      · exact compChars_time 'h' (by decide) oh c hc
      · rcases List.mem_append.mp hc with hc | hc
        · exact compChars_time 'm' (by decide) om c hc
        · exact compChars_time 's' (by decide) os c hc
    have hneq : ∀ c ∈ compChars 'h' oh ++ (compChars 'm' om ++ compChars 's' os),
        c ≠ '=' := by
      intro c hc
      rcases List.mem_append.mp hc with hc | hc
      · exact compChars_ne_eq 'h' (by decide) oh c hc
      · rcases List.mem_append.mp hc with hc | hc
        · exact compChars_ne_eq 'm' (by decide) om c hc
        · exact compChars_ne_eq 's' (by decide) os c hc
    have hsearch := searchTime_expr _ d tl hd hexpr hall hneq
    have htxt : (timeText oh om os).toList =
        "estimated printing time = ".toList ++
          (compChars 'h' oh ++ (compChars 'm' om ++ compChars 's' os)) := rfl
    obtain ⟨hH, hM, hS⟩ := scans_of_expr oh om os
    simp only [parse_time_seconds, htxt, hsearch, hH, hM, hS]
    push_cast
    ring
